import Mathlib

/-!
# Verification of the soroban host core: budget, registry, storage/TTL, fault containment

A shallow embedding of the core of the soroban contract host:
the budget / cost-metering engine, the static host-function registry,
the storage footprint / TTL layer, and the panic-containment helper,
together with theorems settling the specified properties.

Components whose implementation is not present in the repository slice
(the budget engine, the storage layer, the import resolver) are modelled
from the specification text; components present in the source
(`func_info.rs`, `storage_types.rs`, `testutils.rs`) are translated
directly.
-/

namespace Soroban

/-! ## Budget / cost meter

Modelled from the spec: the budget engine (`Budget`, `charge`) is not in the
repository slice; this section follows §4.2 of the specification: each
CostType owns a model `{const_cpu, lin_cpu, const_mem, lin_mem}` with
`cost = const + lin × input_size` computed independently for CPU and memory;
`charge` atomically adds both deltas iff both new totals stay within the
configured limits, otherwise leaves the totals unchanged and returns
ResourceExhausted. -/

/-- An enumerated tag identifying a category of work. -/
abbrev CostType := Nat

/-- Modelled from the spec: per-CostType cost model,
`cost = const + lin × input_size`, independent for CPU and memory. -/
structure CostModel where
  const_cpu : Nat
  lin_cpu : Nat
  const_mem : Nat
  lin_mem : Nat

/-- Modelled from the spec: running totals of CPU and memory consumed,
global CPU and memory limits, and the installed per-CostType models. -/
structure Budget where
  cpu_limit : Nat
  mem_limit : Nat
  cpu_consumed : Nat
  mem_consumed : Nat
  models : CostType → CostModel

inductive BudgetError where
  | ResourceExhausted
deriving DecidableEq

/-- The CPU delta computed by the cost model for an input size. -/
def cpuDelta (b : Budget) (ty : CostType) (size : Nat) : Nat :=
  (b.models ty).const_cpu + (b.models ty).lin_cpu * size

/-- The memory delta computed by the cost model for an input size. -/
def memDelta (b : Budget) (ty : CostType) (size : Nat) : Nat :=
  (b.models ty).const_mem + (b.models ty).lin_mem * size

/-- Modelled from the spec: `charge(cost_type, input_size)` computes the CPU
and memory deltas from the CostType's model, and atomically adds them to the
running totals if and only if both new totals stay within the configured
limits; otherwise it leaves the totals unchanged and returns
ResourceExhausted. -/
def Budget.charge (b : Budget) (ty : CostType) (size : Nat) :
    Except BudgetError Budget :=
  if b.cpu_consumed + cpuDelta b ty size ≤ b.cpu_limit ∧
     b.mem_consumed + memDelta b ty size ≤ b.mem_limit then
    .ok { b with
          cpu_consumed := b.cpu_consumed + cpuDelta b ty size,
          mem_consumed := b.mem_consumed + memDelta b ty size }
  else
    .error .ResourceExhausted

/-- One step of a charge sequence: a failing charge leaves the budget as it
was (the caller treats exhaustion as fatal; no partial charge is recorded). -/
def Budget.chargeStep (b : Budget) (c : CostType × Nat) : Budget :=
  match b.charge c.1 c.2 with
  | .ok b' => b'
  | .error _ => b

/-- The budget resulting from a sequence of `charge` calls. -/
def Budget.runCharges (b : Budget) (seq : List (CostType × Nat)) : Budget :=
  seq.foldl Budget.chargeStep b

/-- The condition under which a charge would push a total past its limit. -/
def Budget.wouldExceed (b : Budget) (ty : CostType) (size : Nat) : Prop :=
  b.cpu_limit < b.cpu_consumed + cpuDelta b ty size ∨
  b.mem_limit < b.mem_consumed + memDelta b ty size

theorem Budget.chargeStep_cpu_limit (b : Budget) (c : CostType × Nat) :
    (b.chargeStep c).cpu_limit = b.cpu_limit := by
  unfold Budget.chargeStep Budget.charge
  by_cases h : b.cpu_consumed + cpuDelta b c.1 c.2 ≤ b.cpu_limit ∧
      b.mem_consumed + memDelta b c.1 c.2 ≤ b.mem_limit
  · rw [if_pos h]
  · rw [if_neg h]

theorem Budget.chargeStep_mem_limit (b : Budget) (c : CostType × Nat) :
    (b.chargeStep c).mem_limit = b.mem_limit := by
  unfold Budget.chargeStep Budget.charge
  by_cases h : b.cpu_consumed + cpuDelta b c.1 c.2 ≤ b.cpu_limit ∧
      b.mem_consumed + memDelta b c.1 c.2 ≤ b.mem_limit
  · rw [if_pos h]
  · rw [if_neg h]

theorem Budget.chargeStep_within (b : Budget) (c : CostType × Nat)
    (hc : b.cpu_consumed ≤ b.cpu_limit) (hm : b.mem_consumed ≤ b.mem_limit) :
    (b.chargeStep c).cpu_consumed ≤ (b.chargeStep c).cpu_limit ∧
    (b.chargeStep c).mem_consumed ≤ (b.chargeStep c).mem_limit := by
  unfold Budget.chargeStep Budget.charge
  by_cases h : b.cpu_consumed + cpuDelta b c.1 c.2 ≤ b.cpu_limit ∧
      b.mem_consumed + memDelta b c.1 c.2 ≤ b.mem_limit
  · rw [if_pos h]
    exact ⟨h.1, h.2⟩
  · rw [if_neg h]
    exact ⟨hc, hm⟩

theorem Budget.runCharges_within (b : Budget) (seq : List (CostType × Nat))
    (hc : b.cpu_consumed ≤ b.cpu_limit) (hm : b.mem_consumed ≤ b.mem_limit) :
    (b.runCharges seq).cpu_consumed ≤ (b.runCharges seq).cpu_limit ∧
    (b.runCharges seq).mem_consumed ≤ (b.runCharges seq).mem_limit := by
  induction seq generalizing b with
  | nil => exact ⟨hc, hm⟩
  | cons c rest ih =>
      have h := Budget.chargeStep_within b c hc hm
      exact ih (b.chargeStep c) h.1 h.2

theorem Budget.runCharges_cpu_limit (b : Budget) (seq : List (CostType × Nat)) :
    (b.runCharges seq).cpu_limit = b.cpu_limit := by
  induction seq generalizing b with
  | nil => rfl
  | cons c rest ih =>
      show (Budget.runCharges _ rest).cpu_limit = _
      rw [ih, Budget.chargeStep_cpu_limit]

theorem Budget.runCharges_mem_limit (b : Budget) (seq : List (CostType × Nat)) :
    (b.runCharges seq).mem_limit = b.mem_limit := by
  induction seq generalizing b with
  | nil => rfl
  | cons c rest ih =>
      show (Budget.runCharges _ rest).mem_limit = _
      rw [ih, Budget.chargeStep_mem_limit]

/-- **C1.** For every sequence of `charge(cost_type, input_size)` calls
against a budget whose running totals start within its configured CPU and
memory limits, the cumulative consumed CPU and memory never exceed those
limits; and a charge whose computed delta would push either total past its
limit returns ResourceExhausted and leaves both running totals exactly as
they were (no partial charge is recorded). -/
theorem budget_charges_never_exceed_limits (b : Budget)
    (seq : List (CostType × Nat))
    (hc : b.cpu_consumed ≤ b.cpu_limit) (hm : b.mem_consumed ≤ b.mem_limit) :
    ((b.runCharges seq).cpu_consumed ≤ b.cpu_limit ∧
     (b.runCharges seq).mem_consumed ≤ b.mem_limit) ∧
    (∀ (c : Budget) (ty : CostType) (size : Nat), c.wouldExceed ty size →
      c.charge ty size = .error .ResourceExhausted ∧ c.chargeStep (ty, size) = c) := by
  constructor
  · have h := Budget.runCharges_within b seq hc hm
    rw [Budget.runCharges_cpu_limit, Budget.runCharges_mem_limit] at h
    exact h
  · intro c ty size hex
    have hfail : c.charge ty size = .error .ResourceExhausted := by
      unfold Budget.charge
      rw [if_neg]
      intro ⟨h1, h2⟩
      rcases hex with h | h
      · exact absurd h1 (Nat.not_le_of_lt h)
      · exact absurd h2 (Nat.not_le_of_lt h)
    refine ⟨hfail, ?_⟩
    unfold Budget.chargeStep
    rw [hfail]

/-- A witness budget with limits 100/100, nothing consumed, and the model
`cost = 10 + 1 × size` for CPU and `5 + 0 × size` for memory on every type. -/
def witnessBudget : Budget :=
  { cpu_limit := 100, mem_limit := 100, cpu_consumed := 0, mem_consumed := 0,
    models := fun _ => ⟨10, 1, 5, 0⟩ }

/-- Witness for C1 at a concrete budget and charge sequence. -/
theorem budget_charges_never_exceed_limits_witness :
    (witnessBudget.runCharges [(0, 30), (0, 50), (0, 90)]).cpu_consumed ≤
      witnessBudget.cpu_limit ∧
    (witnessBudget.runCharges [(0, 30), (0, 50), (0, 90)]).mem_consumed ≤
      witnessBudget.mem_limit :=
  (budget_charges_never_exceed_limits witnessBudget [(0, 30), (0, 50), (0, 90)]
    (by decide) (by decide)).1

/-- **C2.** The charge computed for a given (CostType, input_size) is a pure
function of those two arguments and the installed cost model: two runs of
the same sequence of charges from equal budgets (same models, same limits)
produce identical cumulative totals; and every successful charge adds
exactly `const + lin × input_size`, computed independently for CPU and
memory, to the running totals. -/
theorem cost_model_pure_deterministic (b b' : Budget)
    (seq seq' : List (CostType × Nat)) (hb : b = b') (hs : seq = seq') :
    b.runCharges seq = b'.runCharges seq' ∧
    (∀ (c c' : Budget) (ty : CostType) (size : Nat),
      c.charge ty size = .ok c' →
      c'.cpu_consumed =
        c.cpu_consumed + ((c.models ty).const_cpu + (c.models ty).lin_cpu * size) ∧
      c'.mem_consumed =
        c.mem_consumed + ((c.models ty).const_mem + (c.models ty).lin_mem * size)) := by
  subst hb; subst hs
  refine ⟨rfl, ?_⟩
  intro c c' ty size hok
  unfold Budget.charge at hok
  split at hok
  · cases hok
    exact ⟨rfl, rfl⟩
  · cases hok

/-- Witness for C2: two runs of the same concrete sequence coincide. -/
theorem cost_model_pure_deterministic_witness :
    witnessBudget.runCharges [(0, 7), (1, 2)] =
      witnessBudget.runCharges [(0, 7), (1, 2)] :=
  (cost_model_pure_deterministic witnessBudget witnessBudget
    [(0, 7), (1, 2)] [(0, 7), (1, 2)] rfl rfl).1

/-! ## Host function registry (`vm/func_info.rs`)

The descriptor type `HostFuncInfo` and the arity computation `arity_helper!`
are translated from `func_info.rs`. The manifest itself
(`call_macro_with_all_host_functions`) and the VM import-resolution step are
not in the repository slice, so the registry generation is parameterized by
a manifest and `resolve` is modelled from §4.1 of the specification. -/

/-- Host functions take word-sized (i64) parameters; per `func_info.rs`,
"every host function we have just takes N i64 values and returns an i64". -/
inductive ArgTy where
  | I64
deriving DecidableEq

/-- From `func_info.rs`: the descriptor of one host function. The dispatch
function pointer is kept as an opaque handle. -/
structure HostFuncInfo where
  mod_id : String
  field_name : String
  arity : Nat
  dispatch : Nat
deriving DecidableEq

/-- The (module, name) key of a descriptor. -/
def HostFuncInfo.key (f : HostFuncInfo) : String × String :=
  (f.mod_id, f.field_name)

/-- From `func_info.rs` (`arity_helper!`): maps an argument-list pattern of
zero to six parameters to its arity; a longer list matches no macro arm
(a compile-time failure), modelled here by `none`. -/
def arity_helper : List ArgTy → Option Nat
  | [] => some 0
  | [_] => some 1
  | [_, _] => some 2
  | [_, _, _] => some 3
  | [_, _, _, _] => some 4
  | [_, _, _, _, _] => some 5
  | [_, _, _, _, _, _] => some 6
  | _ => none

/-- One function description of the host-function manifest: a module string,
a field-name string, the declared argument signature, and the dispatch
handle. -/
structure ManifestEntry where
  mod_id : String
  field_name : String
  args : List ArgTy
  dispatch : Nat

/-- From `func_info.rs` (`generate_host_function_infos!`): flattens the
manifest into the static `HOST_FUNCTIONS` array of `HostFuncInfo`, computing
each arity with `arity_helper`; a signature with more than six parameters
fails to generate. -/
def generate_host_function_infos : List ManifestEntry → Option (List HostFuncInfo)
  | [] => some []
  | e :: rest =>
    (arity_helper e.args).bind fun a =>
      (generate_host_function_infos rest).map fun tail =>
        { mod_id := e.mod_id, field_name := e.field_name,
          arity := a, dispatch := e.dispatch } :: tail

/-- Modelled from the spec: `resolve(module, name, requested_arity)` (§4.1);
the VM import-resolution step is not in the repository slice. It fails if no
descriptor matches the (module, name) pair, or if the requested arity
differs from the descriptor's recorded arity; on success it returns the
descriptor, before any dispatch occurs. -/
def resolve (registry : List HostFuncInfo) (module name : String)
    (requested_arity : Nat) : Option HostFuncInfo :=
  match registry.find? (fun f => f.mod_id == module && f.field_name == name) with
  | some f => if f.arity == requested_arity then some f else none
  | none => none

theorem arity_helper_eq_length (args : List ArgTy) (n : Nat)
    (h : arity_helper args = some n) : n = args.length ∧ n ≤ 6 := by
  unfold arity_helper at h
  split at h <;> simp_all <;> omega

theorem generate_host_function_infos_forall₂ (manifest : List ManifestEntry)
    (registry : List HostFuncInfo)
    (h : generate_host_function_infos manifest = some registry) :
    List.Forall₂ (fun e f => f.mod_id = e.mod_id ∧ f.field_name = e.field_name ∧
      f.arity = e.args.length ∧ f.arity ≤ 6 ∧ f.dispatch = e.dispatch)
      manifest registry := by
  induction manifest generalizing registry with
  | nil =>
      unfold generate_host_function_infos at h
      cases h
      exact List.Forall₂.nil
  | cons e rest ih =>
      unfold generate_host_function_infos at h
      cases ha : arity_helper e.args with
      | none => rw [ha] at h; cases h
      | some a =>
          rw [ha] at h
          cases hr : generate_host_function_infos rest with
          | none => rw [hr] at h; cases h
          | some tail =>
              rw [hr] at h
              simp only [Option.bind_eq_bind, Option.some_bind, Option.map_some] at h
              cases h
              have hlen := arity_helper_eq_length e.args a ha
              exact List.Forall₂.cons ⟨rfl, rfl, hlen.1, hlen.1 ▸ hlen.2, rfl⟩ (ih tail hr)

/-- **C3.** In the static host-function registry (generated from a manifest
with unique (module, name) keys), every (module, name) pair identifies
exactly one descriptor, each descriptor's recorded arity equals the number
of parameters in its declared signature (between 0 and 6), and
`resolve(module, name, requested_arity)` succeeds exactly when some
descriptor matches (module, name) and the requested arity equals that
descriptor's arity, failing otherwise before any dispatch occurs. -/
theorem registry_resolve_exact (manifest : List ManifestEntry)
    (registry : List HostFuncInfo)
    (hgen : generate_host_function_infos manifest = some registry)
    (huniq : (registry.map HostFuncInfo.key).Nodup) :
    (∀ f ∈ registry, ∀ g ∈ registry, f.key = g.key → f = g) ∧
    List.Forall₂ (fun e f => f.arity = e.args.length ∧ f.arity ≤ 6)
      manifest registry ∧
    (∀ (m n : String) (a : Nat) (f : HostFuncInfo),
      resolve registry m n a = some f ↔
        f ∈ registry ∧ f.mod_id = m ∧ f.field_name = n ∧ f.arity = a) := by
  have hkey : ∀ f ∈ registry, ∀ g ∈ registry, f.key = g.key → f = g :=
    fun f hf g hg hfg => List.inj_on_of_nodup_map huniq hf hg hfg
  refine ⟨hkey, ?_, ?_⟩
  · exact (generate_host_function_infos_forall₂ manifest registry hgen).imp
      (fun _ _ h => ⟨h.2.2.1, h.2.2.2.1⟩)
  · intro m n a f
    constructor
    · intro h
      unfold resolve at h
      cases hf : registry.find? (fun g => g.mod_id == m && g.field_name == n) with
      | none => rw [hf] at h; cases h
      | some g =>
          rw [hf] at h
          have hpred := List.find?_some hf
          have hmem := List.mem_of_find?_eq_some hf
          simp only [Bool.and_eq_true, beq_iff_eq] at hpred
          have h' : (if (g.arity == a) = true then some g else none) = some f := h
          by_cases harr : g.arity = a
          · rw [if_pos (by simpa using harr)] at h'
            cases h'
            exact ⟨hmem, hpred.1, hpred.2, harr⟩
          · rw [if_neg (by simpa using harr)] at h'
            cases h'
    · intro ⟨hmem, h1, h2, h3⟩
      unfold resolve
      have hpredf : (fun g : HostFuncInfo => g.mod_id == m && g.field_name == n) f = true := by
        simp [h1, h2]
      have hsome : (registry.find?
          (fun g => g.mod_id == m && g.field_name == n)).isSome := by
        rw [List.find?_isSome]
        exact ⟨f, hmem, hpredf⟩
      obtain ⟨g, hg⟩ := Option.isSome_iff_exists.mp hsome
      have hpredg := List.find?_some hg
      have hmemg := List.mem_of_find?_eq_some hg
      simp only [Bool.and_eq_true, beq_iff_eq] at hpredg
      have : g = f := by
        apply hkey g hmemg f hmem
        unfold HostFuncInfo.key
        rw [hpredg.1, hpredg.2, h1, h2]
      subst this
      rw [hg]
      simp [h3]

/-- A two-entry witness manifest for the registry theorems. -/
def witnessManifest : List ManifestEntry :=
  [{ mod_id := "x", field_name := "a", args := [.I64], dispatch := 0 },
   { mod_id := "x", field_name := "b", args := [], dispatch := 1 }]

/-- The registry generated from the witness manifest. -/
def witnessRegistry : List HostFuncInfo :=
  [{ mod_id := "x", field_name := "a", arity := 1, dispatch := 0 },
   { mod_id := "x", field_name := "b", arity := 0, dispatch := 1 }]

/-- Witness for C3: a concrete resolve on the generated witness registry. -/
theorem registry_resolve_exact_witness :
    resolve witnessRegistry "x" "a" 1 =
      some { mod_id := "x", field_name := "a", arity := 1, dispatch := 0 } :=
  ((registry_resolve_exact witnessManifest witnessRegistry rfl (by decide)).2.2
    "x" "a" 1 { mod_id := "x", field_name := "a", arity := 1, dispatch := 0 }).mpr
    ⟨by decide, rfl, rfl, rfl⟩

/-! ## TTL class constants (`storage_types.rs`) and `extend_ttl` -/

/-- From `storage_types.rs`: `DAY_IN_LEDGERS = 17280`. -/
def DAY_IN_LEDGERS : Nat := 17280

/-- From `storage_types.rs`: `INSTANCE_EXTEND_AMOUNT = 7 * DAY_IN_LEDGERS`. -/
def INSTANCE_EXTEND_AMOUNT : Nat := 7 * DAY_IN_LEDGERS

/-- From `storage_types.rs`:
`INSTANCE_TTL_THRESHOLD = INSTANCE_EXTEND_AMOUNT - DAY_IN_LEDGERS`. -/
def INSTANCE_TTL_THRESHOLD : Nat := INSTANCE_EXTEND_AMOUNT - DAY_IN_LEDGERS

/-- From `storage_types.rs`: `BALANCE_EXTEND_AMOUNT = 30 * DAY_IN_LEDGERS`. -/
def BALANCE_EXTEND_AMOUNT : Nat := 30 * DAY_IN_LEDGERS

/-- From `storage_types.rs`:
`BALANCE_TTL_THRESHOLD = BALANCE_EXTEND_AMOUNT - DAY_IN_LEDGERS`. -/
def BALANCE_TTL_THRESHOLD : Nat := BALANCE_EXTEND_AMOUNT - DAY_IN_LEDGERS

/-- Modelled from the spec: the TTL update performed by
`extend_ttl(key, extend_amount, threshold)` (§4.3) — the storage layer is
not in the repository slice. If the entry's
`live_until − current_ledger < threshold`, it sets
`live_until = current_ledger + extend_amount`, never shrinking it;
otherwise the value is unchanged. -/
def extendTtlVal (current live_until extend_amount threshold : Nat) : Nat :=
  if live_until - current < threshold then
    max live_until (current + extend_amount)
  else
    live_until

/-! ## Storage, footprint and expiry (modelled from spec §4.3)

The storage layer itself is not in the repository slice (only its test
harness in `testutils.rs` is), so `get`/`put`/`has`/`extend_ttl`, the
two-mode footprint and the lazy snapshot cache are modelled from §4.3 of
the specification. -/

/-- Opaque, totally ordered identifier for one unit of persistent state. -/
abbrev Key := Nat

/-- Opaque value bound to a key. -/
abbrev EntryVal := Nat

/-- The two footprint modes of §4.3 (cf. `FootprintMode::Enforcing` in
`testutils.rs`). -/
inductive FootprintMode where
  | Recording
  | Enforcing
deriving DecidableEq

/-- The set of keys an invocation may touch: a read-set and a write-set. -/
structure Footprint where
  readSet : List Key
  writeSet : List Key
deriving DecidableEq

inductive StorageError where
  | FootprintViolation
  | MissingEntry
  | ExpiredEntry
deriving DecidableEq

/-- A ledger entry as cached: its value and its optional live-until ledger. -/
structure CacheVal where
  entry : EntryVal
  live_until : Option Nat
deriving DecidableEq

/-- Modelled from the spec: the storage state — footprint mode and sets, a
lazily populated cache (an entry `(k, none)` records that `k` is known to be
absent), the read-only backing snapshot, and the current ledger sequence. -/
structure Storage where
  mode : FootprintMode
  footprint : Footprint
  cache : List (Key × Option CacheVal)
  snapshot : Key → Option CacheVal
  current_ledger : Nat

/-- Per-StorageType TTL policy constants (§3): `extend_amount` and
`threshold`. -/
structure TtlConst where
  extend_amount : Nat
  threshold : Nat
deriving DecidableEq

/-- The TTL constants of the stellar asset contract's Persistent balance
class (`storage_types.rs`). -/
def balanceTtl : TtlConst :=
  { extend_amount := BALANCE_EXTEND_AMOUNT, threshold := BALANCE_TTL_THRESHOLD }

/-- The TTL constants of the stellar asset contract's instance class
(`storage_types.rs`). -/
def instanceTtl : TtlConst :=
  { extend_amount := INSTANCE_EXTEND_AMOUNT, threshold := INSTANCE_TTL_THRESHOLD }

/-- Modelled from the spec: the footprint discipline of read-like accesses —
in Enforcing mode the access fails unless the key is in the declared
read-set; in Recording mode the key is added to the read-set. -/
def recordRead (st : Storage) (k : Key) : Except StorageError Storage :=
  if k ∈ st.footprint.readSet then .ok st
  else
    match st.mode with
    | .Recording =>
        .ok { st with
              footprint := { st.footprint with readSet := k :: st.footprint.readSet } }
    | .Enforcing => .error .FootprintViolation

/-- Modelled from the spec: the footprint discipline of `put`, analogous to
`recordRead` but on the write-set. -/
def recordWrite (st : Storage) (k : Key) : Except StorageError Storage :=
  if k ∈ st.footprint.writeSet then .ok st
  else
    match st.mode with
    | .Recording =>
        .ok { st with
              footprint := { st.footprint with writeSet := k :: st.footprint.writeSet } }
    | .Enforcing => .error .FootprintViolation

/-- First cached binding for a key, if the key has been fetched before. -/
def lookupCache (cache : List (Key × Option CacheVal)) (k : Key) :
    Option (Option CacheVal) :=
  (cache.find? (fun p => p.1 == k)).map Prod.snd

/-- Modelled from the spec: lazy snapshot fetch — an entry is fetched from
the backing snapshot the first time its key is touched, then cached (even
when absent) for the remainder of the invocation. -/
def fetchCached (st : Storage) (k : Key) : Storage × Option CacheVal :=
  match lookupCache st.cache k with
  | some v => (st, v)
  | none => ({ st with cache := (k, st.snapshot k) :: st.cache }, st.snapshot k)

/-- The entry-level part of `get` on an already-fetched cache value: fail
with MissingEntry when absent, fail with ExpiredEntry when
`live_until < current_ledger`, otherwise auto-extend the TTL with the
supplied StorageType constants and return the entry. -/
def getDataCore (tc : TtlConst) (st1 : Storage) (k : Key) (v : Option CacheVal) :
    Except StorageError (EntryVal × Option Nat) × Storage :=
  match v with
  | none => (.error .MissingEntry, st1)
  | some cv =>
    match cv.live_until with
    | none => (.ok (cv.entry, none), st1)
    | some lu =>
      if lu < st1.current_ledger then (.error .ExpiredEntry, st1)
      else
        let lu2 := extendTtlVal st1.current_ledger lu tc.extend_amount tc.threshold
        (.ok (cv.entry, some lu2),
         { st1 with cache := (k, some { cv with live_until := some lu2 }) :: st1.cache })

/-- Modelled from the spec: the data part of `get` after the footprint
check — lazy cached fetch, then the entry-level access. -/
def getData (tc : TtlConst) (st : Storage) (k : Key) :
    Except StorageError (EntryVal × Option Nat) × Storage :=
  getDataCore tc (fetchCached st k).1 k (fetchCached st k).2

/-- Modelled from the spec: `get(key)` — footprint check, then data access. -/
def Storage.get (tc : TtlConst) (st : Storage) (k : Key) :
    Except StorageError (EntryVal × Option Nat) × Storage :=
  match recordRead st k with
  | .error e => (.error e, st)
  | .ok st1 => getData tc st1 k

/-- Modelled from the spec: the data part of `put` after the footprint
check — the new entry is written to the cache and its `live_until` is
auto-extended from the previous one (a fresh entry starts with no remaining
lifetime). -/
def putDataCore (tc : TtlConst) (st1 : Storage) (k : Key) (e : EntryVal)
    (v : Option CacheVal) : Except StorageError Unit × Storage :=
  let oldLu : Nat :=
    match v with
    | some cv => cv.live_until.getD st1.current_ledger
    | none => st1.current_ledger
  let lu2 := extendTtlVal st1.current_ledger oldLu tc.extend_amount tc.threshold
  (.ok (), { st1 with
             cache := (k, some { entry := e, live_until := some lu2 }) :: st1.cache })

/-- Modelled from the spec: the data part of `put` after the footprint
check — lazy cached fetch of the previous entry, then the cached write. -/
def putData (tc : TtlConst) (st : Storage) (k : Key) (e : EntryVal) :
    Except StorageError Unit × Storage :=
  putDataCore tc (fetchCached st k).1 k e (fetchCached st k).2

/-- Modelled from the spec: `put(key, entry)` — footprint check on the
write-set, then the cached write. -/
def Storage.put (tc : TtlConst) (st : Storage) (k : Key) (e : EntryVal) :
    Except StorageError Unit × Storage :=
  match recordWrite st k with
  | .error e => (.error e, st)
  | .ok st1 => putData tc st1 k e

/-- Modelled from the spec: the data part of `has` — a footprint-checked
existence probe. -/
def hasData (st : Storage) (k : Key) : Except StorageError Bool × Storage :=
  (.ok (fetchCached st k).2.isSome, (fetchCached st k).1)

/-- Modelled from the spec: `has(key)`. -/
def Storage.has (st : Storage) (k : Key) : Except StorageError Bool × Storage :=
  match recordRead st k with
  | .error e => (.error e, st)
  | .ok st1 => hasData st1 k

/-- Modelled from the spec: the data part of the standalone `extend_ttl`
host function — extends the cached entry's TTL with the supplied constants. -/
def extendTtlDataCore (tc : TtlConst) (st1 : Storage) (k : Key)
    (v : Option CacheVal) : Except StorageError Unit × Storage :=
  match v with
  | none => (.error .MissingEntry, st1)
  | some cv =>
    match cv.live_until with
    | none => (.ok (), st1)
    | some lu =>
      if lu < st1.current_ledger then (.error .ExpiredEntry, st1)
      else
        let lu2 := extendTtlVal st1.current_ledger lu tc.extend_amount tc.threshold
        (.ok (), { st1 with
                   cache := (k, some { cv with live_until := some lu2 }) :: st1.cache })

/-- Modelled from the spec: the data part of the standalone `extend_ttl`
host function — lazy cached fetch, then the TTL extension. -/
def extendTtlData (tc : TtlConst) (st : Storage) (k : Key) :
    Except StorageError Unit × Storage :=
  extendTtlDataCore tc (fetchCached st k).1 k (fetchCached st k).2

/-- Modelled from the spec: the standalone `extend_ttl(key, extend_amount,
threshold)` host function, footprint-checked like a read. -/
def Storage.extend_ttl (tc : TtlConst) (st : Storage) (k : Key) :
    Except StorageError Unit × Storage :=
  match recordRead st k with
  | .error e => (.error e, st)
  | .ok st1 => extendTtlData tc st1 k

/-- A storage state at the start of an invocation with no known footprint:
Recording mode, empty footprint, empty cache
(cf. `Storage::with_recording_footprint` used in `testutils.rs`). -/
def initRecording (snap : Key → Option CacheVal) (cur : Nat) : Storage :=
  { mode := .Recording, footprint := ⟨[], []⟩, cache := [],
    snapshot := snap, current_ledger := cur }

/-- The keys recorded in the footprint (read-set and write-set together). -/
def fpKeys (st : Storage) : List Key :=
  st.footprint.readSet ++ st.footprint.writeSet

/-- **C4 (counterexample).** The claim fails as stated when `threshold >
extend_amount`: with `live_until = 10`, `current_ledger = 0`,
`extend_amount = 5`, `threshold = 20`, the remaining lifetime is below the
threshold, yet setting `live_until = current_ledger + extend_amount = 5`
would shrink it, contradicting "live_until never decreases"; `extend_ttl`
keeps `live_until = 10 ≠ 5`. -/
theorem extend_ttl_claim_counterexample :
    10 - 0 < 20 ∧ extendTtlVal 0 10 5 20 ≠ 0 + 5 := by decide

/-- **C4 (amended).** For every call `extend_ttl(key, extend_amount,
threshold)`: `live_until` never decreases; if
`live_until − current_ledger ≥ threshold` then `live_until` is unchanged;
and if `live_until − current_ledger < threshold` then — provided
`threshold ≤ extend_amount`, as holds for every TTL class in the
repository — afterwards `live_until = current_ledger + extend_amount`. -/
theorem extend_ttl_never_decreases (current lu ext thr : Nat) :
    lu ≤ extendTtlVal current lu ext thr ∧
    (thr ≤ lu - current → extendTtlVal current lu ext thr = lu) ∧
    (thr ≤ ext → lu - current < thr →
      extendTtlVal current lu ext thr = current + ext) := by
  unfold extendTtlVal
  refine ⟨?_, ?_, ?_⟩
  · split
    · exact le_max_left _ _
    · exact le_rfl
  · intro h
    rw [if_neg (Nat.not_lt.mpr h)]
  · intro hte hlt
    rw [if_pos hlt]
    exact Nat.max_eq_right (by omega)

/-- Witness for C4 at `current = 0`, `live_until = 5`, `extend_amount = 30`,
`threshold = 10`. -/
theorem extend_ttl_never_decreases_witness :
    5 ≤ extendTtlVal 0 5 30 10 ∧ extendTtlVal 0 5 30 10 = 0 + 30 :=
  ⟨(extend_ttl_never_decreases 0 5 30 10).1,
   (extend_ttl_never_decreases 0 5 30 10).2.2 (by decide) (by decide)⟩

theorem extendTtlVal_fresh_within_day (L d ext thr : Nat)
    (hthr : thr = ext - DAY_IN_LEDGERS) (hd : d ≤ DAY_IN_LEDGERS)
    (hext : DAY_IN_LEDGERS ≤ ext) :
    extendTtlVal (L + d) (L + ext) ext thr = L + ext := by
  unfold extendTtlVal
  rw [if_neg]
  omega

/-- **C9.** The TTL class constants: each threshold equals the extension
amount minus one day of ledgers (`DAY_IN_LEDGERS = 17280`), the instance
class extends by `7 × 17280` with threshold `6 × 17280`, the balance class
by `30 × 17280` with threshold `29 × 17280`; all four are computed without
u32 overflow (every value is below `2^32` and no subtraction underflows);
consequently an entry freshly extended at ledger `L` is not re-extended at
any ledger `L + d` with `d ≤ DAY_IN_LEDGERS`, i.e. until its remaining
lifetime has decayed by at least one day of ledgers. -/
theorem ttl_class_constants (L d : Nat) (hd : d ≤ DAY_IN_LEDGERS) :
    (INSTANCE_EXTEND_AMOUNT = 7 * DAY_IN_LEDGERS ∧
     INSTANCE_TTL_THRESHOLD = 6 * DAY_IN_LEDGERS ∧
     BALANCE_EXTEND_AMOUNT = 30 * DAY_IN_LEDGERS ∧
     BALANCE_TTL_THRESHOLD = 29 * DAY_IN_LEDGERS ∧
     INSTANCE_TTL_THRESHOLD = INSTANCE_EXTEND_AMOUNT - DAY_IN_LEDGERS ∧
     BALANCE_TTL_THRESHOLD = BALANCE_EXTEND_AMOUNT - DAY_IN_LEDGERS) ∧
    (DAY_IN_LEDGERS ≤ INSTANCE_EXTEND_AMOUNT ∧
     DAY_IN_LEDGERS ≤ BALANCE_EXTEND_AMOUNT ∧
     INSTANCE_EXTEND_AMOUNT < 2 ^ 32 ∧ BALANCE_EXTEND_AMOUNT < 2 ^ 32 ∧
     INSTANCE_TTL_THRESHOLD < 2 ^ 32 ∧ BALANCE_TTL_THRESHOLD < 2 ^ 32 ∧
     7 * DAY_IN_LEDGERS % 2 ^ 32 = INSTANCE_EXTEND_AMOUNT ∧
     30 * DAY_IN_LEDGERS % 2 ^ 32 = BALANCE_EXTEND_AMOUNT) ∧
    (extendTtlVal (L + d) (L + INSTANCE_EXTEND_AMOUNT)
        INSTANCE_EXTEND_AMOUNT INSTANCE_TTL_THRESHOLD = L + INSTANCE_EXTEND_AMOUNT ∧
     extendTtlVal (L + d) (L + BALANCE_EXTEND_AMOUNT)
        BALANCE_EXTEND_AMOUNT BALANCE_TTL_THRESHOLD = L + BALANCE_EXTEND_AMOUNT) := by
  refine ⟨by decide, by decide, ?_, ?_⟩
  · exact extendTtlVal_fresh_within_day L d INSTANCE_EXTEND_AMOUNT
      INSTANCE_TTL_THRESHOLD rfl hd (by decide)
  · exact extendTtlVal_fresh_within_day L d BALANCE_EXTEND_AMOUNT
      BALANCE_TTL_THRESHOLD rfl hd (by decide)

/-- Witness for C9 at a fresh extension at ledger 0 read again one full day
later. -/
theorem ttl_class_constants_witness :
    extendTtlVal (0 + 17280) (0 + BALANCE_EXTEND_AMOUNT)
      BALANCE_EXTEND_AMOUNT BALANCE_TTL_THRESHOLD = 0 + BALANCE_EXTEND_AMOUNT :=
  (ttl_class_constants 0 17280 (by decide)).2.2.2

/-- The storage state after writing the balance entry `42 ↦ 7` at ledger 0
through the Persistent balance class constants. -/
def balanceScenarioSt1 : Storage :=
  (Storage.put balanceTtl (initRecording (fun _ => none) 0) 42 7).2

/-- The same storage state advanced to ledger 1. -/
def balanceScenarioSt2 : Storage :=
  { balanceScenarioSt1 with current_ledger := 1 }

deriving instance DecidableEq for Except

/-- **C5.** Writing a Persistent-class (balance) entry at current ledger 0
with the class constants `extend_amount = 30 × 17280` and
`threshold = 29 × 17280` sets its `live_until` to `30 × 17280`; an
immediate read of the same entry at ledger 1 succeeds and leaves
`live_until` unchanged, the remaining lifetime still being at or above the
threshold. -/
theorem persistent_balance_write_then_read :
    lookupCache balanceScenarioSt1.cache 42 =
      some (some { entry := 7, live_until := some (30 * 17280) }) ∧
    (Storage.get balanceTtl balanceScenarioSt2 42).1 =
      .ok (7, some (30 * 17280)) ∧
    lookupCache (Storage.get balanceTtl balanceScenarioSt2 42).2.cache 42 =
      some (some { entry := 7, live_until := some (30 * 17280) }) := by
  decide

/-! ### Mode and footprint preservation of the storage operations -/

theorem fetchCached_mode (st : Storage) (k : Key) :
    (fetchCached st k).1.mode = st.mode := by
  unfold fetchCached
  split <;> rfl

theorem fetchCached_footprint (st : Storage) (k : Key) :
    (fetchCached st k).1.footprint = st.footprint := by
  unfold fetchCached
  split <;> rfl

theorem getDataCore_mode (tc : TtlConst) (st1 : Storage) (k : Key)
    (v : Option CacheVal) : (getDataCore tc st1 k v).2.mode = st1.mode := by
  unfold getDataCore
  split
  · rfl
  · split
    · rfl
    · split
      · rfl
      · rfl

theorem getDataCore_footprint (tc : TtlConst) (st1 : Storage) (k : Key)
    (v : Option CacheVal) : (getDataCore tc st1 k v).2.footprint = st1.footprint := by
  unfold getDataCore
  split
  · rfl
  · split
    · rfl
    · split
      · rfl
      · rfl

theorem getData_mode (tc : TtlConst) (st : Storage) (k : Key) :
    (getData tc st k).2.mode = st.mode := by
  unfold getData
  rw [getDataCore_mode, fetchCached_mode]

theorem getData_footprint (tc : TtlConst) (st : Storage) (k : Key) :
    (getData tc st k).2.footprint = st.footprint := by
  unfold getData
  rw [getDataCore_footprint, fetchCached_footprint]

theorem putData_mode (tc : TtlConst) (st : Storage) (k : Key) (e : EntryVal) :
    (putData tc st k e).2.mode = st.mode := by
  unfold putData putDataCore
  rw [show ∀ s : Storage, ∀ c, ({s with cache := c} : Storage).mode = s.mode from fun _ _ => rfl,
    fetchCached_mode]

theorem putData_footprint (tc : TtlConst) (st : Storage) (k : Key) (e : EntryVal) :
    (putData tc st k e).2.footprint = st.footprint := by
  unfold putData putDataCore
  rw [show ∀ s : Storage, ∀ c, ({s with cache := c} : Storage).footprint = s.footprint from
    fun _ _ => rfl, fetchCached_footprint]

theorem hasData_mode (st : Storage) (k : Key) :
    (hasData st k).2.mode = st.mode := by
  unfold hasData
  rw [fetchCached_mode]

theorem hasData_footprint (st : Storage) (k : Key) :
    (hasData st k).2.footprint = st.footprint := by
  unfold hasData
  rw [fetchCached_footprint]

theorem extendTtlDataCore_mode (tc : TtlConst) (st1 : Storage) (k : Key)
    (v : Option CacheVal) : (extendTtlDataCore tc st1 k v).2.mode = st1.mode := by
  unfold extendTtlDataCore
  split
  · rfl
  · split
    · rfl
    · split
      · rfl
      · rfl

theorem extendTtlDataCore_footprint (tc : TtlConst) (st1 : Storage) (k : Key)
    (v : Option CacheVal) :
    (extendTtlDataCore tc st1 k v).2.footprint = st1.footprint := by
  unfold extendTtlDataCore
  split
  · rfl
  · split
    · rfl
    · split
      · rfl
      · rfl

theorem extendTtlData_mode (tc : TtlConst) (st : Storage) (k : Key) :
    (extendTtlData tc st k).2.mode = st.mode := by
  unfold extendTtlData
  rw [extendTtlDataCore_mode, fetchCached_mode]

theorem extendTtlData_footprint (tc : TtlConst) (st : Storage) (k : Key) :
    (extendTtlData tc st k).2.footprint = st.footprint := by
  unfold extendTtlData
  rw [extendTtlDataCore_footprint, fetchCached_footprint]

theorem recordRead_ok_mode (st st' : Storage) (k : Key)
    (h : recordRead st k = .ok st') : st'.mode = st.mode := by
  unfold recordRead at h
  by_cases hk : k ∈ st.footprint.readSet
  · rw [if_pos hk] at h
    cases h
    rfl
  · rw [if_neg hk] at h
    cases hm : st.mode with
    | Recording =>
        rw [hm] at h
        cases h
        rfl
    | Enforcing =>
        rw [hm] at h
        cases h

theorem recordWrite_ok_mode (st st' : Storage) (k : Key)
    (h : recordWrite st k = .ok st') : st'.mode = st.mode := by
  unfold recordWrite at h
  by_cases hk : k ∈ st.footprint.writeSet
  · rw [if_pos hk] at h
    cases h
    rfl
  · rw [if_neg hk] at h
    cases hm : st.mode with
    | Recording =>
        rw [hm] at h
        cases h
        rfl
    | Enforcing =>
        rw [hm] at h
        cases h

theorem get_mode (tc : TtlConst) (st : Storage) (k : Key) :
    (Storage.get tc st k).2.mode = st.mode := by
  unfold Storage.get
  cases hrec : recordRead st k with
  | error e => rfl
  | ok st1 =>
      show (getData tc st1 k).2.mode = st.mode
      rw [getData_mode]
      exact recordRead_ok_mode st st1 k hrec

theorem put_mode (tc : TtlConst) (st : Storage) (k : Key) (e : EntryVal) :
    (Storage.put tc st k e).2.mode = st.mode := by
  unfold Storage.put
  cases hrec : recordWrite st k with
  | error err => rfl
  | ok st1 =>
      show (putData tc st1 k e).2.mode = st.mode
      rw [putData_mode]
      exact recordWrite_ok_mode st st1 k hrec

theorem has_mode (st : Storage) (k : Key) :
    (Storage.has st k).2.mode = st.mode := by
  unfold Storage.has
  cases hrec : recordRead st k with
  | error e => rfl
  | ok st1 =>
      show (hasData st1 k).2.mode = st.mode
      rw [hasData_mode]
      exact recordRead_ok_mode st st1 k hrec

theorem extend_ttl_mode (tc : TtlConst) (st : Storage) (k : Key) :
    (Storage.extend_ttl tc st k).2.mode = st.mode := by
  unfold Storage.extend_ttl
  cases hrec : recordRead st k with
  | error e => rfl
  | ok st1 =>
      show (extendTtlData tc st1 k).2.mode = st.mode
      rw [extendTtlData_mode]
      exact recordRead_ok_mode st st1 k hrec

/-! ### C6: enforcing mode rejects undeclared keys without touching state -/

/-- **C6.** In Enforcing mode, a `get` on a key not in the declared read-set
and a `put` on a key not in the declared write-set fail with
FootprintViolation, and the failing access returns the storage state exactly
as it was — in particular no fetch from the backing snapshot is performed
and no cache entry is created. -/
theorem enforcing_violation_no_fetch (tc : TtlConst) (st : Storage)
    (k k' : Key) (e : EntryVal) (hm : st.mode = .Enforcing)
    (hr : k ∉ st.footprint.readSet) (hw : k' ∉ st.footprint.writeSet) :
    Storage.get tc st k = (.error .FootprintViolation, st) ∧
    Storage.put tc st k' e = (.error .FootprintViolation, st) := by
  constructor
  · have hrec : recordRead st k = .error .FootprintViolation := by
      unfold recordRead
      rw [if_neg hr, hm]
    unfold Storage.get
    rw [hrec]
  · have hrec : recordWrite st k' = .error .FootprintViolation := by
      unfold recordWrite
      rw [if_neg hw, hm]
    unfold Storage.put
    rw [hrec]

/-- A concrete storage state in Enforcing mode, with read-set `{1}` and
write-set `{2}`. -/
def witnessEnforcingSt : Storage :=
  { mode := .Enforcing, footprint := { readSet := [1], writeSet := [2] },
    cache := [], snapshot := fun _ => none, current_ledger := 0 }

/-- Witness for C6: undeclared keys 7 and 8 are rejected untouched. -/
theorem enforcing_violation_no_fetch_witness :
    Storage.get balanceTtl witnessEnforcingSt 7 =
      (.error .FootprintViolation, witnessEnforcingSt) ∧
    Storage.put balanceTtl witnessEnforcingSt 8 3 =
      (.error .FootprintViolation, witnessEnforcingSt) :=
  enforcing_violation_no_fetch balanceTtl witnessEnforcingSt 7 8 3 rfl
    (by decide) (by decide)

/-! ### C7: recording mode records exactly the touched keys -/

theorem recordRead_recording (st : Storage) (k : Key)
    (hm : st.mode = .Recording) :
    ∃ st1, recordRead st k = .ok st1 ∧
      st1.footprint.writeSet = st.footprint.writeSet ∧
      ∀ k', (k' ∈ st1.footprint.readSet ↔ k' = k ∨ k' ∈ st.footprint.readSet) := by
  unfold recordRead
  by_cases hk : k ∈ st.footprint.readSet
  · rw [if_pos hk]
    exact ⟨st, rfl, rfl,
      fun k' => ⟨Or.inr, fun h => h.elim (fun he => he ▸ hk) id⟩⟩
  · rw [if_neg hk, hm]
    refine ⟨_, rfl, rfl, fun k' => ?_⟩
    simp [List.mem_cons]

theorem recordWrite_recording (st : Storage) (k : Key)
    (hm : st.mode = .Recording) :
    ∃ st1, recordWrite st k = .ok st1 ∧
      st1.footprint.readSet = st.footprint.readSet ∧
      ∀ k', (k' ∈ st1.footprint.writeSet ↔ k' = k ∨ k' ∈ st.footprint.writeSet) := by
  unfold recordWrite
  by_cases hk : k ∈ st.footprint.writeSet
  · rw [if_pos hk]
    exact ⟨st, rfl, rfl,
      fun k' => ⟨Or.inr, fun h => h.elim (fun he => he ▸ hk) id⟩⟩
  · rw [if_neg hk, hm]
    refine ⟨_, rfl, rfl, fun k' => ?_⟩
    simp [List.mem_cons]

theorem get_fpKeys_recording (tc : TtlConst) (st : Storage) (k k' : Key)
    (hm : st.mode = .Recording) :
    (k' ∈ fpKeys (Storage.get tc st k).2 ↔ k' = k ∨ k' ∈ fpKeys st) := by
  obtain ⟨st1, hrec, hws, hrs⟩ := recordRead_recording st k hm
  have hfp : (Storage.get tc st k).2.footprint = st1.footprint := by
    unfold Storage.get
    rw [hrec]
    exact getData_footprint tc st1 k
  unfold fpKeys
  rw [hfp, hws]
  simp only [List.mem_append, hrs k']
  tauto

theorem put_fpKeys_recording (tc : TtlConst) (st : Storage) (k : Key)
    (e : EntryVal) (k' : Key) (hm : st.mode = .Recording) :
    (k' ∈ fpKeys (Storage.put tc st k e).2 ↔ k' = k ∨ k' ∈ fpKeys st) := by
  obtain ⟨st1, hrec, hrs, hws⟩ := recordWrite_recording st k hm
  have hfp : (Storage.put tc st k e).2.footprint = st1.footprint := by
    unfold Storage.put
    rw [hrec]
    exact putData_footprint tc st1 k e
  unfold fpKeys
  rw [hfp, hrs]
  simp only [List.mem_append, hws k']
  tauto

/-- One storage access of an invocation: a `get` or a `put`. -/
inductive Access where
  | read (tc : TtlConst) (k : Key)
  | write (tc : TtlConst) (k : Key) (e : EntryVal)

/-- The key an access touches. -/
def Access.key : Access → Key
  | .read _ k => k
  | .write _ k _ => k

/-- The storage state after one access (the access's result is discarded). -/
def applyAccess (st : Storage) : Access → Storage
  | .read tc k => (Storage.get tc st k).2
  | .write tc k e => (Storage.put tc st k e).2

/-- The storage state after a sequence of accesses. -/
def runAccesses (st : Storage) (accs : List Access) : Storage :=
  accs.foldl applyAccess st

theorem applyAccess_mode (st : Storage) (a : Access) :
    (applyAccess st a).mode = st.mode := by
  cases a with
  | read tc k => exact get_mode tc st k
  | write tc k e => exact put_mode tc st k e

theorem applyAccess_fpKeys_recording (st : Storage) (a : Access) (k' : Key)
    (hm : st.mode = .Recording) :
    (k' ∈ fpKeys (applyAccess st a) ↔ k' = a.key ∨ k' ∈ fpKeys st) := by
  cases a with
  | read tc k => exact get_fpKeys_recording tc st k k' hm
  | write tc k e => exact put_fpKeys_recording tc st k e k' hm

theorem runAccesses_fpKeys (accs : List Access) (k' : Key) :
    ∀ st : Storage, st.mode = .Recording →
      (k' ∈ fpKeys (runAccesses st accs) ↔
        k' ∈ accs.map Access.key ∨ k' ∈ fpKeys st) := by
  induction accs with
  | nil =>
      intro st hm
      simp [runAccesses]
  | cons a rest ih =>
      intro st hm
      have hm1 : (applyAccess st a).mode = .Recording := by
        rw [applyAccess_mode]
        exact hm
      show k' ∈ fpKeys (runAccesses (applyAccess st a) rest) ↔ _
      rw [ih (applyAccess st a) hm1, applyAccess_fpKeys_recording st a k' hm]
      simp only [List.map_cons, List.mem_cons]
      tauto

/-- **C7.** In Recording mode, after any sequence of storage accesses the
recorded footprint contains exactly the set of keys touched — no extra and
no missing keys — and its membership does not depend on the order in which
the keys were first touched: two access sequences touching the same multiset
of keys record footprints with the same members. -/
theorem recording_footprint_is_touched_keys (snap : Key → Option CacheVal)
    (cur : Nat) (accs accs' : List Access) (k : Key)
    (hperm : List.Perm (accs.map Access.key) (accs'.map Access.key)) :
    (k ∈ fpKeys (runAccesses (initRecording snap cur) accs) ↔
      k ∈ accs.map Access.key) ∧
    (k ∈ fpKeys (runAccesses (initRecording snap cur) accs) ↔
      k ∈ fpKeys (runAccesses (initRecording snap cur) accs')) := by
  have h1 := runAccesses_fpKeys accs k (initRecording snap cur) rfl
  have h2 := runAccesses_fpKeys accs' k (initRecording snap cur) rfl
  have hnil : fpKeys (initRecording snap cur) = [] := rfl
  rw [hnil] at h1 h2
  simp only [List.not_mem_nil, or_false] at h1 h2
  refine ⟨h1, ?_⟩
  rw [h1, h2]
  exact hperm.mem_iff

/-- Witness for C7: two concrete access sequences touching keys {1, 2} in
either order. -/
theorem recording_footprint_is_touched_keys_witness :
    1 ∈ fpKeys (runAccesses (initRecording (fun _ => none) 0)
      [Access.read balanceTtl 1, Access.write balanceTtl 2 5]) ↔
    1 ∈ ([Access.read balanceTtl 1, Access.write balanceTtl 2 5].map Access.key) :=
  (recording_footprint_is_touched_keys (fun _ => none) 0
    [Access.read balanceTtl 1, Access.write balanceTtl 2 5]
    [Access.write balanceTtl 2 5, Access.read balanceTtl 1] 1
    (by decide)).1

/-! ### C8: the Recording → Enforcing transition is one-directional -/

/-- The core's operations on the storage state; `finalizeFootprint` is the
switch to Enforcing mode performed once a footprint has been finalized
(`testutils.rs`: `storage.mode = FootprintMode::Enforcing`). -/
inductive CoreOp where
  | readOp (tc : TtlConst) (k : Key)
  | writeOp (tc : TtlConst) (k : Key) (e : EntryVal)
  | hasOp (k : Key)
  | extendOp (tc : TtlConst) (k : Key)
  | finalizeFootprint

/-- The storage state after one core operation. -/
def applyOp (st : Storage) : CoreOp → Storage
  | .readOp tc k => (Storage.get tc st k).2
  | .writeOp tc k e => (Storage.put tc st k e).2
  | .hasOp k => (Storage.has st k).2
  | .extendOp tc k => (Storage.extend_ttl tc st k).2
  | .finalizeFootprint => { st with mode := .Enforcing }

/-- The storage state after a sequence of core operations. -/
def runOps (st : Storage) (ops : List CoreOp) : Storage :=
  ops.foldl applyOp st

theorem applyOp_enforcing (st : Storage) (op : CoreOp)
    (h : st.mode = .Enforcing) : (applyOp st op).mode = .Enforcing := by
  cases op with
  | readOp tc k =>
      show (Storage.get tc st k).2.mode = _
      rw [get_mode]
      exact h
  | writeOp tc k e =>
      show (Storage.put tc st k e).2.mode = _
      rw [put_mode]
      exact h
  | hasOp k =>
      show (Storage.has st k).2.mode = _
      rw [has_mode]
      exact h
  | extendOp tc k =>
      show (Storage.extend_ttl tc st k).2.mode = _
      rw [extend_ttl_mode]
      exact h
  | finalizeFootprint => rfl

/-- **C8.** Within an invocation, the footprint mode transition
Recording → Enforcing is one-directional: once the storage is in Enforcing
mode, no sequence of core operations (get, put, has, extend_ttl, or the
footprint finalization itself) ever returns it to Recording mode. -/
theorem enforcing_never_reverts (ops : List CoreOp) :
    ∀ st : Storage, st.mode = .Enforcing →
      (runOps st ops).mode = .Enforcing := by
  induction ops with
  | nil => exact fun st h => h
  | cons op rest ih =>
      exact fun st h => ih (applyOp st op) (applyOp_enforcing st op h)

/-- Witness for C8: a concrete enforcing-mode state stays enforcing across
a concrete operation sequence. -/
theorem enforcing_never_reverts_witness :
    (runOps witnessEnforcingSt
      [CoreOp.readOp balanceTtl 1, CoreOp.writeOp balanceTtl 2 5,
       CoreOp.hasOp 3, CoreOp.finalizeFootprint]).mode =
      FootprintMode.Enforcing :=
  enforcing_never_reverts
    [CoreOp.readOp balanceTtl 1, CoreOp.writeOp balanceTtl 2 5,
     CoreOp.hasOp 3, CoreOp.finalizeFootprint] witnessEnforcingSt rfl

/-! ## Panic containment (`testutils.rs`) -/

/-- The payload carried by a panic, kept opaque. -/
abbrev PanicPayload := Nat

/-- The behaviour of a closure passed to the containment wrapper: it either
returns a value or panics with a payload. -/
inductive ClosureOutcome (R : Type) where
  | ret (r : R)
  | panics (p : PanicPayload)

/-- The thread-local state used by `testutils.rs`: the contract-call-depth
counter `TEST_CONTRACT_CALL_COUNT` (a `u64` cell). -/
structure ThreadLocalState where
  test_contract_call_count : Nat

/-- `u64::MAX`, the bound of the `checked_add` on the depth counter. -/
def U64_MAX : Nat := 2 ^ 64 - 1

/-- From `testutils.rs` (`call_with_suppressed_panic_hook`): increments the
thread-local call-depth counter with `checked_add` (whose failure aborts
the harness, modelled by `none`), runs the closure under `catch_unwind` —
a panic is caught and returned as `Err(payload)`, a normal return as
`Ok(result)` — then decrements the counter with `checked_sub` and returns
the caught result. The wrapped panic hook only suppresses console printing
while the counter is nonzero and does not affect the returned value. -/
def call_with_suppressed_panic_hook {R : Type} (st : ThreadLocalState)
    (closure : ClosureOutcome R) :
    Option (Except PanicPayload R × ThreadLocalState) :=
  if st.test_contract_call_count + 1 ≤ U64_MAX then
    let st1 : ThreadLocalState :=
      { test_contract_call_count := st.test_contract_call_count + 1 }
    let res : Except PanicPayload R :=
      match closure with
      | .ret r => .ok r
      | .panics p => .error p
    some (res, { test_contract_call_count := st1.test_contract_call_count - 1 })
  else
    none

/-- **C10.** For every closure passed to `call_with_suppressed_panic_hook`
(at any call depth the counter's `checked_add` can accommodate), the call
returns `Ok(result)` when the closure returns normally and `Err(payload)`
when the closure panics — the panic is caught and never propagates to the
caller — and on both exit paths the thread-local contract-call-depth
counter is restored to exactly its value before the call. -/
theorem suppressed_panic_hook_catches_and_restores {R : Type}
    (st : ThreadLocalState) (closure : ClosureOutcome R)
    (h : st.test_contract_call_count < U64_MAX) :
    call_with_suppressed_panic_hook st closure =
      some ((match closure with
             | .ret r => .ok r
             | .panics p => .error p), st) := by
  unfold call_with_suppressed_panic_hook
  rw [if_pos (Nat.succ_le_of_lt h)]
  rfl

/-- Witness for C10: depth 3, one panicking closure and one returning one. -/
theorem suppressed_panic_hook_catches_and_restores_witness :
    call_with_suppressed_panic_hook ⟨3⟩
        (ClosureOutcome.panics 9 : ClosureOutcome Nat) =
      some (Except.error 9, (⟨3⟩ : ThreadLocalState)) ∧
    call_with_suppressed_panic_hook ⟨3⟩ (ClosureOutcome.ret (5 : Nat)) =
      some (Except.ok 5, (⟨3⟩ : ThreadLocalState)) :=
  ⟨suppressed_panic_hook_catches_and_restores ⟨3⟩
     (ClosureOutcome.panics 9 : ClosureOutcome Nat) (by decide),
   suppressed_panic_hook_catches_and_restores ⟨3⟩ (ClosureOutcome.ret 5)
     (by decide)⟩

end Soroban
